import Mathlib

/-!
Verification of the audio fingerprinting and matching engine of the
nw-hacks-2026 repository (backend/server.js).  The numeric code is embedded
shallowly over the real numbers: JavaScript numbers become `ℝ`, typed arrays
become `List ℝ`, the per-frame feature record becomes the structure `Frame`,
and fallible arithmetic (sites where JavaScript would produce NaN/Infinity)
is modelled with `Option ℝ` in the checked variants.
-/

/-- The per-window feature record built in `extractFeatures`
(backend/server.js): seventeen scalar features per analysis window. -/
structure Frame where
  energy : ℝ
  zcr : ℝ
  spectralCentroid : ℝ
  spectralFlux : ℝ
  spectralRolloff : ℝ
  spectralFlatness : ℝ
  subBass : ℝ
  bass : ℝ
  lowMid : ℝ
  mid : ℝ
  highMid : ℝ
  upperMid : ℝ
  presence : ℝ
  brilliance : ℝ
  peakFreq1 : ℝ
  peakFreq2 : ℝ
  spectralContrast : ℝ

/-- The feature-weight table of `compareFingerprintsAligned`
(`const weights = {...}` in backend/server.js).  It has the same keys as the
feature record, so it is represented by a `Frame` whose fields hold the
weights. -/
noncomputable def weights : Frame where
  energy := 0.01
  zcr := 0.03
  spectralCentroid := 0.12
  spectralFlux := 0.10
  spectralRolloff := 0.10
  spectralFlatness := 0.08
  spectralContrast := 0.08
  subBass := 0.06
  bass := 0.08
  lowMid := 0.07
  mid := 0.08
  highMid := 0.06
  upperMid := 0.05
  presence := 0.04
  brilliance := 0.02
  peakFreq1 := 0.01
  peakFreq2 := 0.01

/-- Per-feature similarity for the non-peak features, from the loop body of
`compareFingerprintsAligned`:
`similarity = Math.exp(-(Math.abs(v1-v2) / Math.max(Math.abs(v1), Math.abs(v2), 0.001)) * 2.0)`. -/
noncomputable def featureSimilarity (v1 v2 : ℝ) : ℝ :=
  Real.exp (-(|v1 - v2| / max (max |v1| |v2|) 0.001) * 2.0)

/-- Per-feature similarity for the two peak-frequency features, from the loop
body of `compareFingerprintsAligned`:
`similarity = Math.exp(-Math.abs(v1-v2) / (Math.max(v1, v2, 1) * 0.1))`. -/
noncomputable def peakFreqSimilarity (v1 v2 : ℝ) : ℝ :=
  Real.exp (-|v1 - v2| / (max (max v1 v2) 1 * 0.1))

/-- Aggregate similarity of one pair of aligned frames: the weighted sum over
the seventeen features computed by the inner loop of
`compareFingerprintsAligned`, in the iteration order of the weight table. -/
noncomputable def frameSimilarity (f1 f2 : Frame) : ℝ :=
  featureSimilarity f1.energy f2.energy * weights.energy +
  featureSimilarity f1.zcr f2.zcr * weights.zcr +
  featureSimilarity f1.spectralCentroid f2.spectralCentroid * weights.spectralCentroid +
  featureSimilarity f1.spectralFlux f2.spectralFlux * weights.spectralFlux +
  featureSimilarity f1.spectralRolloff f2.spectralRolloff * weights.spectralRolloff +
  featureSimilarity f1.spectralFlatness f2.spectralFlatness * weights.spectralFlatness +
  featureSimilarity f1.spectralContrast f2.spectralContrast * weights.spectralContrast +
  featureSimilarity f1.subBass f2.subBass * weights.subBass +
  featureSimilarity f1.bass f2.bass * weights.bass +
  featureSimilarity f1.lowMid f2.lowMid * weights.lowMid +
  featureSimilarity f1.mid f2.mid * weights.mid +
  featureSimilarity f1.highMid f2.highMid * weights.highMid +
  featureSimilarity f1.upperMid f2.upperMid * weights.upperMid +
  featureSimilarity f1.presence f2.presence * weights.presence +
  featureSimilarity f1.brilliance f2.brilliance * weights.brilliance +
  peakFreqSimilarity f1.peakFreq1 f2.peakFreq1 * weights.peakFreq1 +
  peakFreqSimilarity f1.peakFreq2 f2.peakFreq2 * weights.peakFreq2

/-- The `frameSimilarities` array of `compareFingerprintsAligned`: one
aggregate similarity for each index of the common initial segment of the two
fingerprints (the loop runs over `0 ≤ i < min(len1, len2)`). -/
noncomputable def frameSimilarities (fp1 fp2 : List Frame) : List ℝ :=
  (fp1.zip fp2).map fun p => frameSimilarity p.1 p.2

/-- Configuration flag `MATCHING_CONFIG.REQUIRE_TEMPORAL_CONSISTENCY`. -/
def MATCHING_CONFIG_REQUIRE_TEMPORAL_CONSISTENCY : Bool := true

/-- Configuration value `MATCHING_CONFIG.MIN_CONSISTENT_FRAMES`. -/
noncomputable def MATCHING_CONFIG_MIN_CONSISTENT_FRAMES : ℝ := 0.6

/-- Configuration value `MATCHING_CONFIG.DEFAULT_THRESHOLD`. -/
noncomputable def MATCHING_CONFIG_DEFAULT_THRESHOLD : ℝ := 0.85

/-- Embedding of `compareFingerprintsAligned` (backend/server.js): mean of the
per-frame similarities over the aligned common segment, halved when fewer than
`MIN_CONSISTENT_FRAMES` of the frames exceed similarity 0.7. -/
noncomputable def compareFingerprintsAligned (fp1 fp2 : List Frame) : ℝ :=
  let len := min fp1.length fp2.length
  let sims := frameSimilarities fp1 fp2
  let goodFrames := (sims.filter fun s => decide ((0.7 : ℝ) < s)).length
  if MATCHING_CONFIG_REQUIRE_TEMPORAL_CONSISTENCY = true ∧
      (goodFrames : ℝ) / (sims.length : ℝ) < MATCHING_CONFIG_MIN_CONSISTENT_FRAMES then
    sims.sum / (len : ℝ) * 0.5
  else
    sims.sum / (len : ℝ)

/-- Embedding of `compareFingerprints` (backend/server.js): length gate at 10
frames, aligned comparison, then the length-penalty factor 0.85 when
`min(len)/max(len) < 0.7`. -/
noncomputable def compareFingerprints (fp1 fp2 : List Frame) : ℝ :=
  let minLen := min fp1.length fp2.length
  if minLen < 10 then 0
  else
    compareFingerprintsAligned fp1 fp2 *
      (if (minLen : ℝ) / ((max fp1.length fp2.length : ℕ) : ℝ) < 0.7 then 0.85 else 1.0)

/-- A concrete all-zero feature record, used as input for witnesses. -/
def zeroFrame : Frame where
  energy := 0
  zcr := 0
  spectralCentroid := 0
  spectralFlux := 0
  spectralRolloff := 0
  spectralFlatness := 0
  subBass := 0
  bass := 0
  lowMid := 0
  mid := 0
  highMid := 0
  upperMid := 0
  presence := 0
  brilliance := 0
  peakFreq1 := 0
  peakFreq2 := 0
  spectralContrast := 0

/-- A concrete 12-frame fingerprint, long enough to pass the length gate. -/
def zs12 : List Frame := List.replicate 12 zeroFrame

/-- A concrete 5-frame fingerprint, short enough to trip the length gate. -/
def zs5 : List Frame := List.replicate 5 zeroFrame

lemma featureSimilarity_self (v : ℝ) : featureSimilarity v v = 1 := by
  simp [featureSimilarity]

lemma peakFreqSimilarity_self (v : ℝ) : peakFreqSimilarity v v = 1 := by
  simp [peakFreqSimilarity]

lemma frameSimilarity_self (f : Frame) : frameSimilarity f f = 1 := by
  simp [frameSimilarity, featureSimilarity_self, peakFreqSimilarity_self, weights]
  norm_num

lemma frameSimilarities_self (fp : List Frame) :
    frameSimilarities fp fp = List.replicate fp.length 1 := by
  induction fp with
  | nil => simp [frameSimilarities]
  | cons f t ih =>
    show frameSimilarity f f :: frameSimilarities t t = 1 :: List.replicate t.length 1
    rw [frameSimilarity_self, ih]

lemma filter_gt_replicate_one (n : ℕ) :
    (List.replicate n (1 : ℝ)).filter (fun s => decide ((0.7 : ℝ) < s)) =
      List.replicate n 1 := by
  induction n with
  | zero => simp
  | succ k ih =>
    rw [List.replicate_succ, List.filter_cons]
    simp only [decide_eq_true_eq]
    rw [if_pos (by norm_num : (0.7 : ℝ) < 1), ih]

lemma compareFingerprintsAligned_self (fp : List Frame) (h : fp ≠ []) :
    compareFingerprintsAligned fp fp = 1 := by
  have hn : fp.length ≠ 0 := fun e => h (List.length_eq_zero.mp e)
  have hcast : ((fp.length : ℝ)) ≠ 0 := Nat.cast_ne_zero.mpr hn
  simp only [compareFingerprintsAligned, frameSimilarities_self, filter_gt_replicate_one,
    min_self, List.length_replicate, List.sum_replicate, nsmul_eq_mul, mul_one,
    div_self hcast, MATCHING_CONFIG_REQUIRE_TEMPORAL_CONSISTENCY,
    MATCHING_CONFIG_MIN_CONSISTENT_FRAMES]
  norm_num

/-- C1: matching an identical fingerprint of at least 10 frames against
itself yields a score of at least 0.99 (in fact exactly 1): every per-feature
similarity is `exp 0 = 1`, each frame similarity is the weight sum 1, no
temporal or length penalty fires. -/
theorem c1_self_match (fp : List Frame) (h : 10 ≤ fp.length) :
    0.99 ≤ compareFingerprints fp fp := by
  have hne : fp ≠ [] := by
    intro e
    rw [e] at h
    simp at h
  have hcast : ((fp.length : ℝ)) ≠ 0 := Nat.cast_ne_zero.mpr (by omega)
  unfold compareFingerprints
  simp only [min_self, max_self]
  rw [if_neg (by omega), compareFingerprintsAligned_self fp hne, div_self hcast,
    if_neg (by norm_num)]
  norm_num

/-- Witness for C1 at a concrete 12-frame fingerprint. -/
theorem c1_self_match_witness : 10 ≤ zs12.length ∧ 0.99 ≤ compareFingerprints zs12 zs12 :=
  ⟨by simp [zs12], c1_self_match _ (by simp [zs12])⟩

/-- C3: with at least 10 aligned frames, `compareFingerprintsAligned` returns
half of the mean frame similarity exactly when the fraction of frames with
similarity above 0.7 is strictly below 0.6, and the unhalved mean otherwise. -/
theorem c3_temporal_gate (fp1 fp2 : List Frame)
    (h : 10 ≤ min fp1.length fp2.length) :
    compareFingerprintsAligned fp1 fp2 =
      if (((frameSimilarities fp1 fp2).filter (fun s => decide ((0.7 : ℝ) < s))).length : ℝ) /
            ((frameSimilarities fp1 fp2).length : ℝ) < 0.6 then
        (frameSimilarities fp1 fp2).sum / ((frameSimilarities fp1 fp2).length : ℝ) * 0.5
      else
        (frameSimilarities fp1 fp2).sum / ((frameSimilarities fp1 fp2).length : ℝ) := by
  have hlen : (frameSimilarities fp1 fp2).length = min fp1.length fp2.length := by
    simp [frameSimilarities]
  unfold compareFingerprintsAligned
  simp only [MATCHING_CONFIG_REQUIRE_TEMPORAL_CONSISTENCY,
    MATCHING_CONFIG_MIN_CONSISTENT_FRAMES, hlen, true_and]

/-- Witness for C3 at two concrete 12-frame fingerprints. -/
theorem c3_temporal_gate_witness :
    10 ≤ min zs12.length zs12.length ∧
    compareFingerprintsAligned zs12 zs12 =
      if (((frameSimilarities zs12 zs12).filter (fun s => decide ((0.7 : ℝ) < s))).length : ℝ) /
            ((frameSimilarities zs12 zs12).length : ℝ) < 0.6 then
        (frameSimilarities zs12 zs12).sum / ((frameSimilarities zs12 zs12).length : ℝ) * 0.5
      else
        (frameSimilarities zs12 zs12).sum / ((frameSimilarities zs12 zs12).length : ℝ) :=
  ⟨by simp [zs12], c3_temporal_gate _ _ (by simp [zs12])⟩

/-- C7 counterexample: the claim "for every pair of fingerprints the final
score equals the aligned score times the length-penalty factor" fails at a
pair of identical 5-frame fingerprints: the 10-frame length gate returns 0
while the aligned score times the (here trivial) penalty is 1. -/
theorem c7_counterexample :
    compareFingerprints zs5 zs5 ≠
      compareFingerprintsAligned zs5 zs5 *
        (if ((min zs5.length zs5.length : ℕ) : ℝ) /
              ((max zs5.length zs5.length : ℕ) : ℝ) < 0.7 then 0.85 else 1.0) := by
  have h0 : compareFingerprints zs5 zs5 = 0 := by
    simp [compareFingerprints, zs5]
  have h1 : compareFingerprintsAligned zs5 zs5 = 1 :=
    compareFingerprintsAligned_self _ (by simp [zs5])
  rw [h0, h1, min_self, max_self]
  have h5 : ((zs5.length : ℕ) : ℝ) = 5 := by simp [zs5]
  rw [h5, if_neg (by norm_num)]
  norm_num

/-- C7 amended: for every pair of fingerprints that passes the 10-frame
length gate, the final score equals the aligned-comparison score times 0.85
when `min(len)/max(len) < 0.7` and times 1.0 otherwise. -/
theorem c7_length_penalty (fp1 fp2 : List Frame)
    (h : 10 ≤ min fp1.length fp2.length) :
    compareFingerprints fp1 fp2 =
      compareFingerprintsAligned fp1 fp2 *
        (if ((min fp1.length fp2.length : ℕ) : ℝ) /
              ((max fp1.length fp2.length : ℕ) : ℝ) < 0.7 then 0.85 else 1.0) := by
  unfold compareFingerprints
  rw [if_neg (by omega)]

/-- Witness for the amended C7 at a 12-frame and a 30-frame fingerprint (the
length penalty branch with ratio 12/30 < 0.7). -/
theorem c7_length_penalty_witness :
    10 ≤ min zs12.length (List.replicate 30 zeroFrame).length ∧
    compareFingerprints zs12 (List.replicate 30 zeroFrame) =
      compareFingerprintsAligned zs12 (List.replicate 30 zeroFrame) *
        (if ((min zs12.length (List.replicate 30 zeroFrame).length : ℕ) : ℝ) /
              ((max zs12.length (List.replicate 30 zeroFrame).length : ℕ) : ℝ) < 0.7
         then 0.85 else 1.0) :=
  ⟨by simp [zs12], c7_length_penalty _ _ (by simp [zs12])⟩

lemma featureSimilarity_comm (v1 v2 : ℝ) :
    featureSimilarity v1 v2 = featureSimilarity v2 v1 := by
  unfold featureSimilarity
  rw [abs_sub_comm, max_comm |v1| |v2|]

lemma peakFreqSimilarity_comm (v1 v2 : ℝ) :
    peakFreqSimilarity v1 v2 = peakFreqSimilarity v2 v1 := by
  unfold peakFreqSimilarity
  rw [abs_sub_comm, max_comm v1 v2]

lemma frameSimilarity_comm (f1 f2 : Frame) :
    frameSimilarity f1 f2 = frameSimilarity f2 f1 := by
  unfold frameSimilarity
  rw [featureSimilarity_comm f1.energy, featureSimilarity_comm f1.zcr,
    featureSimilarity_comm f1.spectralCentroid, featureSimilarity_comm f1.spectralFlux,
    featureSimilarity_comm f1.spectralRolloff, featureSimilarity_comm f1.spectralFlatness,
    featureSimilarity_comm f1.spectralContrast, featureSimilarity_comm f1.subBass,
    featureSimilarity_comm f1.bass, featureSimilarity_comm f1.lowMid,
    featureSimilarity_comm f1.mid, featureSimilarity_comm f1.highMid,
    featureSimilarity_comm f1.upperMid, featureSimilarity_comm f1.presence,
    featureSimilarity_comm f1.brilliance, peakFreqSimilarity_comm f1.peakFreq1,
    peakFreqSimilarity_comm f1.peakFreq2]

lemma frameSimilarities_comm (fp1 fp2 : List Frame) :
    frameSimilarities fp1 fp2 = frameSimilarities fp2 fp1 := by
  induction fp1 generalizing fp2 with
  | nil => cases fp2 <;> simp [frameSimilarities]
  | cons f1 t1 ih =>
    cases fp2 with
    | nil => simp [frameSimilarities]
    | cons f2 t2 =>
      show frameSimilarity f1 f2 :: frameSimilarities t1 t2 =
        frameSimilarity f2 f1 :: frameSimilarities t2 t1
      rw [frameSimilarity_comm, ih]

/-- C10: fingerprint comparison is symmetric in its two arguments — every
per-feature similarity depends only on the absolute difference and the
maximum of the two values, the aligned loop runs over the common initial
segment, and both penalties are symmetric. -/
theorem c10_symmetry (fp1 fp2 : List Frame) :
    compareFingerprints fp1 fp2 = compareFingerprints fp2 fp1 := by
  have ha : compareFingerprintsAligned fp1 fp2 = compareFingerprintsAligned fp2 fp1 := by
    unfold compareFingerprintsAligned
    rw [frameSimilarities_comm, min_comm fp1.length]
  unfold compareFingerprints
  rw [min_comm fp1.length, max_comm fp1.length, ha]

/-- C8: for every pair of fingerprints whose shorter length is below 10
frames, `compareFingerprints` returns exactly 0, whatever the contents. -/
theorem c8_length_gate (fp1 fp2 : List Frame)
    (h : min fp1.length fp2.length < 10) :
    compareFingerprints fp1 fp2 = 0 := by
  simp [compareFingerprints, h]

/-- Witness for C8 at two concrete 5-frame fingerprints. -/
theorem c8_length_gate_witness :
    min (List.replicate 5 zeroFrame).length (List.replicate 5 zeroFrame).length < 10 ∧
    compareFingerprints (List.replicate 5 zeroFrame) (List.replicate 5 zeroFrame) = 0 :=
  ⟨by simp, c8_length_gate _ _ (by simp)⟩

lemma featureSimilarity_pos (v1 v2 : ℝ) : 0 < featureSimilarity v1 v2 :=
  Real.exp_pos _

lemma featureSimilarity_le_one (v1 v2 : ℝ) : featureSimilarity v1 v2 ≤ 1 := by
  unfold featureSimilarity
  rw [Real.exp_le_one_iff]
  have hd : (0 : ℝ) < max (max |v1| |v2|) 0.001 :=
    lt_of_lt_of_le (by norm_num) (le_max_right _ _)
  have h2 : 0 ≤ |v1 - v2| / max (max |v1| |v2|) 0.001 := div_nonneg (abs_nonneg _) hd.le
  nlinarith

lemma peakFreqSimilarity_pos (v1 v2 : ℝ) : 0 < peakFreqSimilarity v1 v2 :=
  Real.exp_pos _

lemma peakFreqSimilarity_le_one (v1 v2 : ℝ) : peakFreqSimilarity v1 v2 ≤ 1 := by
  unfold peakFreqSimilarity
  rw [Real.exp_le_one_iff]
  have hd : (0 : ℝ) < max (max v1 v2) 1 * 0.1 := by
    have h1 : (1 : ℝ) ≤ max (max v1 v2) 1 := le_max_right _ _
    nlinarith
  have h2 : 0 ≤ |v1 - v2| / (max (max v1 v2) 1 * 0.1) := div_nonneg (abs_nonneg _) hd.le
  rw [neg_div]
  linarith

lemma frameSimilarity_nonneg (f1 f2 : Frame) : 0 ≤ frameSimilarity f1 f2 := by
  unfold frameSimilarity featureSimilarity peakFreqSimilarity weights
  positivity

lemma frameSimilarity_le_one (f1 f2 : Frame) : frameSimilarity f1 f2 ≤ 1 := by
  have e1 := featureSimilarity_le_one f1.energy f2.energy
  have e2 := featureSimilarity_le_one f1.zcr f2.zcr
  have e3 := featureSimilarity_le_one f1.spectralCentroid f2.spectralCentroid
  have e4 := featureSimilarity_le_one f1.spectralFlux f2.spectralFlux
  have e5 := featureSimilarity_le_one f1.spectralRolloff f2.spectralRolloff
  have e6 := featureSimilarity_le_one f1.spectralFlatness f2.spectralFlatness
  have e7 := featureSimilarity_le_one f1.spectralContrast f2.spectralContrast
  have e8 := featureSimilarity_le_one f1.subBass f2.subBass
  have e9 := featureSimilarity_le_one f1.bass f2.bass
  have e10 := featureSimilarity_le_one f1.lowMid f2.lowMid
  have e11 := featureSimilarity_le_one f1.mid f2.mid
  have e12 := featureSimilarity_le_one f1.highMid f2.highMid
  have e13 := featureSimilarity_le_one f1.upperMid f2.upperMid
  have e14 := featureSimilarity_le_one f1.presence f2.presence
  have e15 := featureSimilarity_le_one f1.brilliance f2.brilliance
  have e16 := peakFreqSimilarity_le_one f1.peakFreq1 f2.peakFreq1
  have e17 := peakFreqSimilarity_le_one f1.peakFreq2 f2.peakFreq2
  unfold frameSimilarity
  simp only [weights]
  linarith

lemma listSum_nonneg (l : List ℝ) (h : ∀ x ∈ l, 0 ≤ x) : 0 ≤ l.sum := by
  induction l with
  | nil => simp
  | cons a t ih =>
    have ha := h a (by simp)
    have ht := ih fun x hx => h x (List.mem_cons_of_mem _ hx)
    simp only [List.sum_cons]
    linarith

lemma listSum_le_length (l : List ℝ) (h : ∀ x ∈ l, x ≤ 1) : l.sum ≤ (l.length : ℝ) := by
  induction l with
  | nil => simp
  | cons a t ih =>
    have ha := h a (by simp)
    have ht := ih fun x hx => h x (List.mem_cons_of_mem _ hx)
    simp only [List.sum_cons, List.length_cons]
    push_cast
    linarith

lemma frameSimilarities_mem (fp1 fp2 : List Frame) (x : ℝ)
    (hx : x ∈ frameSimilarities fp1 fp2) : 0 ≤ x ∧ x ≤ 1 := by
  obtain ⟨p, _, rfl⟩ := List.mem_map.mp hx
  exact ⟨frameSimilarity_nonneg _ _, frameSimilarity_le_one _ _⟩

lemma compareFingerprintsAligned_nonneg (fp1 fp2 : List Frame) :
    0 ≤ compareFingerprintsAligned fp1 fp2 := by
  have hs : 0 ≤ (frameSimilarities fp1 fp2).sum :=
    listSum_nonneg _ fun x hx => (frameSimilarities_mem _ _ x hx).1
  have hq : 0 ≤ (frameSimilarities fp1 fp2).sum / ((min fp1.length fp2.length : ℕ) : ℝ) :=
    div_nonneg hs (Nat.cast_nonneg _)
  simp only [compareFingerprintsAligned]
  split
  · linarith
  · exact hq

lemma compareFingerprintsAligned_le_one (fp1 fp2 : List Frame) :
    compareFingerprintsAligned fp1 fp2 ≤ 1 := by
  have hlen : (frameSimilarities fp1 fp2).length = min fp1.length fp2.length := by
    simp [frameSimilarities]
  have hs : 0 ≤ (frameSimilarities fp1 fp2).sum :=
    listSum_nonneg _ fun x hx => (frameSimilarities_mem _ _ x hx).1
  have hq : (frameSimilarities fp1 fp2).sum / ((min fp1.length fp2.length : ℕ) : ℝ) ≤ 1 := by
    rcases Nat.eq_zero_or_pos (min fp1.length fp2.length) with hz | hp
    · have : frameSimilarities fp1 fp2 = [] := by
        rw [← List.length_eq_zero, hlen, hz]
      rw [this, hz]
      norm_num
    · rw [div_le_one (by exact_mod_cast hp)]
      have := listSum_le_length (frameSimilarities fp1 fp2)
        fun x hx => (frameSimilarities_mem _ _ x hx).2
      rw [hlen] at this
      exact this
  simp only [compareFingerprintsAligned]
  split
  · linarith [div_nonneg hs (Nat.cast_nonneg (min fp1.length fp2.length))]
  · exact hq

lemma compareFingerprints_nonneg (fp1 fp2 : List Frame) :
    0 ≤ compareFingerprints fp1 fp2 := by
  have ha := compareFingerprintsAligned_nonneg fp1 fp2
  simp only [compareFingerprints]
  split
  · linarith
  · split <;> nlinarith

lemma compareFingerprints_le_one (fp1 fp2 : List Frame) :
    compareFingerprints fp1 fp2 ≤ 1 := by
  have ha := compareFingerprintsAligned_nonneg fp1 fp2
  have hb := compareFingerprintsAligned_le_one fp1 fp2
  simp only [compareFingerprints]
  split
  · norm_num
  · split <;> nlinarith

/-- A stored reference entry, as written by `storeAudio` into the in-memory
`database` map: the fingerprint, the owning user, and a timestamp string. -/
structure StoredData where
  fingerprint : List Frame
  userId : String
  timestamp : String

/-- One element of the `allScores` array built by `matchAudio`. -/
structure ScoreEntry where
  audioId : String
  score : ℝ
  userId : String

/-- The object returned by `matchAudio`: the best-matching identifier (the
source calls the field `match`, a reserved word here), the confidence, and
the ranked score list. -/
structure MatchResult where
  bestMatch : Option String
  confidence : ℝ
  allScores : List ScoreEntry

/-- Owner filter of the `matchAudio` loop:
`if (userId && storedData.userId !== userId) continue;`. -/
def keepEntry (userId : Option String) (p : String × StoredData) : Bool :=
  match userId with
  | some u => p.2.userId == u
  | none => true

/-- The `allScores` array accumulated by the `matchAudio` loop, in database
order. -/
noncomputable def scoreEntries (ufp : List Frame) (database : List (String × StoredData))
    (userId : Option String) : List ScoreEntry :=
  (database.filter (keepEntry userId)).map fun p =>
    { audioId := p.1, score := compareFingerprints ufp p.2.fingerprint, userId := p.2.userId }

/-- The `bestMatch`/`bestScore` accumulation of the `matchAudio` loop,
starting from `(null, 0)` and taking each score that strictly improves. -/
noncomputable def bestOf (scores : List ScoreEntry) : Option String × ℝ :=
  scores.foldl (fun acc e => if acc.2 < e.score then (some e.audioId, e.score) else acc)
    ((none : Option String), (0 : ℝ))

/-- Descending-score order used by `allScores.sort((a, b) => b.score - a.score)`. -/
def scoreDescOrder (a b : ScoreEntry) : Prop := b.score ≤ a.score

noncomputable instance : DecidableRel scoreDescOrder :=
  fun a b => Real.decidableLE _ _

/-- The sort of `allScores` performed by `matchAudio` before returning. -/
noncomputable def rankScores (scores : List ScoreEntry) : List ScoreEntry :=
  List.insertionSort scoreDescOrder scores

/-- Embedding of the pure core of `matchAudio` (backend/server.js): the
fingerprint of the probe clip and the stored database are taken as inputs
(file decoding is outside the model), and the loop, sort, and threshold test
are modelled exactly. -/
noncomputable def matchAudio (ufp : List Frame) (database : List (String × StoredData))
    (threshold : ℝ) (userId : Option String) : MatchResult :=
  let scores := scoreEntries ufp database userId
  let best := bestOf scores
  if threshold ≤ best.2 then
    { bestMatch := best.1, confidence := best.2, allScores := rankScores scores }
  else
    { bestMatch := none, confidence := best.2, allScores := rankScores scores }

lemma ite_lt_eq_max (a b : ℝ) : (if a < b then b else a) = max a b := by
  rcases lt_or_le a b with h | h
  · simp [h, max_eq_right h.le]
  · simp [not_lt.2 h, max_eq_left h]

lemma bestOf_snd_foldl (l : List ScoreEntry) (acc : Option String × ℝ) :
    (l.foldl (fun acc e => if acc.2 < e.score then (some e.audioId, e.score) else acc) acc).2 =
      l.foldl (fun m e => max m e.score) acc.2 := by
  induction l generalizing acc with
  | nil => rfl
  | cons e t ih =>
    simp only [List.foldl_cons]
    rw [ih]
    rcases lt_or_le acc.2 e.score with h | h
    · simp [h, max_eq_right h.le]
    · simp [not_lt.2 h, max_eq_left h]

lemma bestOf_snd_eq_max (l : List ScoreEntry) :
    (bestOf l).2 = l.foldl (fun m e => max m e.score) 0 :=
  bestOf_snd_foldl l _

lemma foldl_max_bounds (l : List ScoreEntry) (a : ℝ) (h0 : 0 ≤ a) (h1 : a ≤ 1)
    (h : ∀ e ∈ l, 0 ≤ e.score ∧ e.score ≤ 1) :
    0 ≤ l.foldl (fun m e => max m e.score) a ∧ l.foldl (fun m e => max m e.score) a ≤ 1 := by
  induction l generalizing a with
  | nil => exact ⟨h0, h1⟩
  | cons e t ih =>
    simp only [List.foldl_cons]
    have he := h e (by simp)
    exact ih (max a e.score) (le_max_of_le_left h0) (max_le h1 he.2)
      fun x hx => h x (List.mem_cons_of_mem _ hx)

lemma matchAudio_confidence_eq (ufp : List Frame) (db : List (String × StoredData))
    (threshold : ℝ) (uid : Option String) :
    (matchAudio ufp db threshold uid).confidence = (bestOf (scoreEntries ufp db uid)).2 := by
  simp only [matchAudio]
  split <;> rfl

lemma scoreEntries_mem_bounds (ufp : List Frame) (db : List (String × StoredData))
    (uid : Option String) :
    ∀ e ∈ scoreEntries ufp db uid, 0 ≤ e.score ∧ e.score ≤ 1 := by
  intro e he
  obtain ⟨p, _, rfl⟩ := List.mem_map.mp he
  exact ⟨compareFingerprints_nonneg _ _, compareFingerprints_le_one _ _⟩

/-- C2: the seventeen feature weights of the aligned comparison sum exactly
to 1; consequently every per-frame similarity, every final comparison score,
and the confidence returned by the matcher lie in the interval [0, 1]. -/
theorem c2_weights_sum_and_score_bounds :
    (weights.energy + weights.zcr + weights.spectralCentroid + weights.spectralFlux +
      weights.spectralRolloff + weights.spectralFlatness + weights.spectralContrast +
      weights.subBass + weights.bass + weights.lowMid + weights.mid + weights.highMid +
      weights.upperMid + weights.presence + weights.brilliance + weights.peakFreq1 +
      weights.peakFreq2 = 1) ∧
    (∀ f1 f2 : Frame, 0 ≤ frameSimilarity f1 f2 ∧ frameSimilarity f1 f2 ≤ 1) ∧
    (∀ fp1 fp2 : List Frame,
      0 ≤ compareFingerprints fp1 fp2 ∧ compareFingerprints fp1 fp2 ≤ 1) ∧
    (∀ (ufp : List Frame) (db : List (String × StoredData)) (th : ℝ) (uid : Option String),
      0 ≤ (matchAudio ufp db th uid).confidence ∧
        (matchAudio ufp db th uid).confidence ≤ 1) := by
  refine ⟨by simp only [weights]; norm_num,
    fun f1 f2 => ⟨frameSimilarity_nonneg f1 f2, frameSimilarity_le_one f1 f2⟩,
    fun fp1 fp2 => ⟨compareFingerprints_nonneg _ _, compareFingerprints_le_one _ _⟩, ?_⟩
  intro ufp db th uid
  rw [matchAudio_confidence_eq, bestOf_snd_eq_max]
  exact foldl_max_bounds _ 0 le_rfl (by norm_num) (scoreEntries_mem_bounds ufp db uid)

/-- C6: when the best score is below the threshold the matcher reports no
best match but carries the top score (the running maximum of all candidate
scores, started at 0) as its confidence; an empty store or an owner filter
that removes every candidate gives confidence 0 and no best match; the
ranked score list is returned in every case. -/
theorem c6_no_match_reporting (ufp : List Frame) (db : List (String × StoredData))
    (threshold : ℝ) (uid : Option String) :
    ((bestOf (scoreEntries ufp db uid)).2 < threshold →
      (matchAudio ufp db threshold uid).bestMatch = none ∧
      (matchAudio ufp db threshold uid).confidence = (bestOf (scoreEntries ufp db uid)).2) ∧
    (db.filter (keepEntry uid) = [] →
      (matchAudio ufp db threshold uid).confidence = 0 ∧
      (matchAudio ufp db threshold uid).bestMatch = none) ∧
    (matchAudio ufp db threshold uid).allScores = rankScores (scoreEntries ufp db uid) ∧
    (bestOf (scoreEntries ufp db uid)).2 =
      (scoreEntries ufp db uid).foldl (fun m e => max m e.score) 0 := by
  refine ⟨?_, ?_, ?_, bestOf_snd_eq_max _⟩
  · intro h
    simp only [matchAudio]
    rw [if_neg (not_le.mpr h)]
    exact ⟨rfl, rfl⟩
  · intro h
    have hs : scoreEntries ufp db uid = [] := by
      simp [scoreEntries, h]
    have hb : bestOf (scoreEntries ufp db uid) = (none, 0) := by
      rw [hs]; rfl
    simp only [matchAudio, hb]
    split <;> exact ⟨rfl, rfl⟩
  · simp only [matchAudio]
    split <;> rfl

/-- Witness for C6: an empty store at the default threshold gives
confidence 0 and no best match. -/
theorem c6_no_match_reporting_witness :
    (([] : List (String × StoredData)).filter (keepEntry none) = []) ∧
    (matchAudio zs12 [] MATCHING_CONFIG_DEFAULT_THRESHOLD none).confidence = 0 ∧
    (matchAudio zs12 [] MATCHING_CONFIG_DEFAULT_THRESHOLD none).bestMatch = none :=
  ⟨rfl, (c6_no_match_reporting zs12 [] MATCHING_CONFIG_DEFAULT_THRESHOLD none).2.1 rfl⟩

/-- Start bin of a frequency band, from `getBandEnergy`:
`startBin = Math.max(0, Math.floor((lowFreq / nyquist) * spectrum.length))`. -/
noncomputable def bandStartBin (spectrum : List ℝ) (lowFreq sampleRate : ℝ) : ℤ :=
  max 0 ⌊lowFreq / (sampleRate / 2) * (spectrum.length : ℝ)⌋

/-- End bin of a frequency band, from `getBandEnergy`:
`endBin = Math.min(Math.ceil((highFreq / nyquist) * spectrum.length), spectrum.length)`. -/
noncomputable def bandEndBin (spectrum : List ℝ) (highFreq sampleRate : ℝ) : ℤ :=
  min ⌈highFreq / (sampleRate / 2) * (spectrum.length : ℝ)⌉ (spectrum.length : ℤ)

/-- Sum of squared magnitudes over the band's bin range `[startBin, endBin)`,
the `energy` accumulator of `getBandEnergy`. -/
noncomputable def bandEnergySum (spectrum : List ℝ) (lowFreq highFreq sampleRate : ℝ) : ℝ :=
  (((spectrum.drop (bandStartBin spectrum lowFreq sampleRate).toNat).take
      (bandEndBin spectrum highFreq sampleRate -
        bandStartBin spectrum lowFreq sampleRate).toNat).map fun x => x * x).sum

/-- Embedding of `getBandEnergy` (backend/server.js): 0 on an empty bin span,
otherwise `Math.sqrt(energy / (endBin - startBin + 1))`. -/
noncomputable def getBandEnergy (spectrum : List ℝ) (lowFreq highFreq sampleRate : ℝ) : ℝ :=
  if bandEndBin spectrum highFreq sampleRate ≤ bandStartBin spectrum lowFreq sampleRate then 0
  else
    Real.sqrt (bandEnergySum spectrum lowFreq highFreq sampleRate /
      ((bandEndBin spectrum highFreq sampleRate -
          bandStartBin spectrum lowFreq sampleRate + 1 : ℤ) : ℝ))

/-- Band energy as the specification words describe it, for comparison with
`getBandEnergy`: the RMS (root of the mean of the squares) of the magnitudes
over the bins the frequency range maps to, i.e. division by the bin count
`endBin - startBin`, and 0 on an empty bin span. -/
noncomputable def bandEnergyRmsSpec (spectrum : List ℝ) (lowFreq highFreq sampleRate : ℝ) : ℝ :=
  if bandEndBin spectrum highFreq sampleRate ≤ bandStartBin spectrum lowFreq sampleRate then 0
  else
    Real.sqrt (bandEnergySum spectrum lowFreq highFreq sampleRate /
      ((bandEndBin spectrum highFreq sampleRate -
          bandStartBin spectrum lowFreq sampleRate : ℤ) : ℝ))

lemma bandEnergySum_nonneg (spectrum : List ℝ) (lowFreq highFreq sampleRate : ℝ) :
    0 ≤ bandEnergySum spectrum lowFreq highFreq sampleRate := by
  apply listSum_nonneg
  intro x hx
  obtain ⟨y, _, rfl⟩ := List.mem_map.mp hx
  exact mul_self_nonneg y

/-- C4 counterexample: the claim that `getBandEnergy` computes the RMS over
the mapped bins fails on the one-bin spectrum `[2]` with band `[0, 1]` at
sample rate 2: the mapped span is the single bin 0, the RMS is 2, but the
code divides the squared sum 4 by span + 1 = 2 and returns `sqrt 2`. -/
theorem c4_counterexample :
    getBandEnergy [(2 : ℝ)] 0 1 2 ≠ bandEnergyRmsSpec [(2 : ℝ)] 0 1 2 := by
  have hs : bandStartBin [(2 : ℝ)] 0 2 = 0 := by
    norm_num [bandStartBin]
  have he : bandEndBin [(2 : ℝ)] 1 2 = 1 := by
    norm_num [bandEndBin]
  have hsum : bandEnergySum [(2 : ℝ)] 0 1 2 = 4 := by
    norm_num [bandEnergySum, hs, he]
  have h1 : getBandEnergy [(2 : ℝ)] 0 1 2 = Real.sqrt 2 := by
    rw [getBandEnergy, hs, he, hsum, if_neg (by norm_num)]
    norm_num
  have h2 : bandEnergyRmsSpec [(2 : ℝ)] 0 1 2 = 2 := by
    rw [bandEnergyRmsSpec, hs, he, hsum, if_neg (by norm_num)]
    norm_num
    rw [show (4 : ℝ) = 2 ^ 2 by norm_num, Real.sqrt_sq (by norm_num)]
  rw [h1, h2]
  have hlt : Real.sqrt 2 < 2 := by
    nlinarith [Real.sq_sqrt (by norm_num : (0 : ℝ) ≤ 2), Real.sqrt_nonneg 2]
  exact ne_of_lt hlt

/-- C4 amended: `getBandEnergy` returns 0 on an empty bin span, and on a
non-empty span of `n` bins it returns the RMS of the magnitudes over those
bins scaled by `sqrt (n / (n + 1))` — the code divides the squared sum by
`n + 1` rather than the bin count `n`, so it slightly underestimates the
RMS the specification describes. -/
theorem c4_band_energy_vs_rms (spectrum : List ℝ) (lowFreq highFreq sampleRate : ℝ) :
    (bandEndBin spectrum highFreq sampleRate ≤ bandStartBin spectrum lowFreq sampleRate →
      getBandEnergy spectrum lowFreq highFreq sampleRate = 0) ∧
    (bandStartBin spectrum lowFreq sampleRate < bandEndBin spectrum highFreq sampleRate →
      getBandEnergy spectrum lowFreq highFreq sampleRate =
        bandEnergyRmsSpec spectrum lowFreq highFreq sampleRate *
          Real.sqrt
            (((bandEndBin spectrum highFreq sampleRate -
                bandStartBin spectrum lowFreq sampleRate : ℤ) : ℝ) /
              ((bandEndBin spectrum highFreq sampleRate -
                  bandStartBin spectrum lowFreq sampleRate + 1 : ℤ) : ℝ))) := by
  constructor
  · intro h
    rw [getBandEnergy, if_pos h]
  · intro h
    have hn : (0 : ℝ) < ((bandEndBin spectrum highFreq sampleRate -
        bandStartBin spectrum lowFreq sampleRate : ℤ) : ℝ) := by
      exact_mod_cast sub_pos.mpr h
    have hn1 : (0 : ℝ) < ((bandEndBin spectrum highFreq sampleRate -
        bandStartBin spectrum lowFreq sampleRate + 1 : ℤ) : ℝ) := by
      push_cast
      push_cast at hn
      linarith
    have hE := bandEnergySum_nonneg spectrum lowFreq highFreq sampleRate
    rw [getBandEnergy, bandEnergyRmsSpec, if_neg (not_le.mpr h), if_neg (not_le.mpr h)]
    rw [← Real.sqrt_mul (div_nonneg hE hn.le)]
    congr 1
    push_cast
    push_cast at hn hn1
    field_simp

/-- Witness for the amended C4: the empty-span case at band [30, 60] of a
one-bin spectrum, and the scaled-RMS case at band [0, 1] of the same
spectrum, both at sample rate 2. -/
theorem c4_band_energy_vs_rms_witness :
    (bandEndBin [(2 : ℝ)] 60 2 ≤ bandStartBin [(2 : ℝ)] 30 2 ∧
      getBandEnergy [(2 : ℝ)] 30 60 2 = 0) ∧
    (bandStartBin [(2 : ℝ)] 0 2 < bandEndBin [(2 : ℝ)] 1 2 ∧
      getBandEnergy [(2 : ℝ)] 0 1 2 =
        bandEnergyRmsSpec [(2 : ℝ)] 0 1 2 *
          Real.sqrt
            (((bandEndBin [(2 : ℝ)] 1 2 - bandStartBin [(2 : ℝ)] 0 2 : ℤ) : ℝ) /
              ((bandEndBin [(2 : ℝ)] 1 2 - bandStartBin [(2 : ℝ)] 0 2 + 1 : ℤ) : ℝ))) := by
  have h1 : bandEndBin [(2 : ℝ)] 60 2 ≤ bandStartBin [(2 : ℝ)] 30 2 := by
    norm_num [bandStartBin, bandEndBin]
  have h2 : bandStartBin [(2 : ℝ)] 0 2 < bandEndBin [(2 : ℝ)] 1 2 := by
    norm_num [bandStartBin, bandEndBin]
  exact ⟨⟨h1, (c4_band_energy_vs_rms [(2 : ℝ)] 30 60 2).1 h1⟩,
    ⟨h2, (c4_band_energy_vs_rms [(2 : ℝ)] 0 1 2).2 h2⟩⟩

/-- Maximum absolute sample value, the `maxAmplitude` loop of
`normalizeAudio`. -/
noncomputable def maxAbs (samples : List ℝ) : ℝ :=
  samples.foldl (fun m x => max m |x|) 0

/-- Embedding of `normalizeAudio` (backend/server.js): return the input
unchanged when the peak is 0, otherwise divide every sample by the peak. -/
noncomputable def normalizeAudio (samples : List ℝ) : List ℝ :=
  if maxAbs samples = 0 then samples else samples.map fun x => x / maxAbs samples

/-- Filter coefficient of `highPassFilter`:
`RC = 1/(cutoffFreq * 2 * Math.PI)`, `dt = 1/sampleRate`,
`alpha = RC/(RC + dt)`. -/
noncomputable def hpAlpha (cutoffFreq sampleRate : ℝ) : ℝ :=
  let RC := 1 / (cutoffFreq * 2 * Real.pi)
  let dt := 1 / sampleRate
  RC / (RC + dt)

/-- Recurrence of `highPassFilter`:
`filtered[i] = alpha * (filtered[i-1] + samples[i] - samples[i-1])`,
carried with the previous output and previous input values. -/
noncomputable def hpGo (alpha : ℝ) : ℝ → ℝ → List ℝ → List ℝ
  | _, _, [] => []
  | prevY, prevX, x :: xs =>
    alpha * (prevY + x - prevX) :: hpGo alpha (alpha * (prevY + x - prevX)) x xs

/-- Embedding of `highPassFilter` (backend/server.js): the first output
equals the first input, then the single-pole recurrence. -/
noncomputable def highPassFilter (samples : List ℝ) (cutoffFreq sampleRate : ℝ) : List ℝ :=
  match samples with
  | [] => []
  | x :: xs => x :: hpGo (hpAlpha cutoffFreq sampleRate) x x xs

/-- Signal conditioning as performed at the start of `extractFeatures`:
`samples = normalizeAudio(samples); samples = highPassFilter(samples, 80, sampleRate)`. -/
noncomputable def condition (samples : List ℝ) (sampleRate : ℝ) : List ℝ :=
  highPassFilter (normalizeAudio samples) 80 sampleRate

lemma foldl_max_abs_init_le (l : List ℝ) (a : ℝ) :
    a ≤ l.foldl (fun m y => max m |y|) a := by
  induction l generalizing a with
  | nil => exact le_rfl
  | cons x t ih => exact le_trans (le_max_left _ _) (ih (max a |x|))

lemma abs_le_foldl_max_abs (l : List ℝ) (a x : ℝ) (hx : x ∈ l) :
    |x| ≤ l.foldl (fun m y => max m |y|) a := by
  induction l generalizing a with
  | nil => simp at hx
  | cons y t ih =>
    rcases List.mem_cons.mp hx with rfl | hx'
    · exact le_trans (le_max_right _ _) (foldl_max_abs_init_le t (max a |x|))
    · exact ih (max a |y|) hx'

lemma abs_le_maxAbs (l : List ℝ) (x : ℝ) (hx : x ∈ l) : |x| ≤ maxAbs l :=
  abs_le_foldl_max_abs l 0 x hx

lemma maxAbs_nonneg (l : List ℝ) : 0 ≤ maxAbs l :=
  foldl_max_abs_init_le l 0

lemma foldl_max_abs_le (l : List ℝ) (a c : ℝ) (ha : a ≤ c)
    (h : ∀ x ∈ l, |x| ≤ c) : l.foldl (fun m y => max m |y|) a ≤ c := by
  induction l generalizing a with
  | nil => exact ha
  | cons x t ih =>
    exact ih (max a |x|) (max_le ha (h x (by simp)))
      fun y hy => h y (List.mem_cons_of_mem _ hy)

lemma maxAbs_le (l : List ℝ) (c : ℝ) (hc : 0 ≤ c) (h : ∀ x ∈ l, |x| ≤ c) :
    maxAbs l ≤ c :=
  foldl_max_abs_le l 0 c hc h

lemma normalizeAudio_mem_abs_le_one (l : List ℝ) (x : ℝ)
    (hx : x ∈ normalizeAudio l) : |x| ≤ 1 := by
  unfold normalizeAudio at hx
  by_cases h : maxAbs l = 0
  · rw [if_pos h] at hx
    have := abs_le_maxAbs l x hx
    rw [h] at this
    linarith
  · rw [if_neg h] at hx
    obtain ⟨y, hy, rfl⟩ := List.mem_map.mp hx
    have hm : 0 < maxAbs l := lt_of_le_of_ne (maxAbs_nonneg l) (Ne.symm h)
    rw [abs_div, abs_of_pos hm, div_le_one hm]
    exact abs_le_maxAbs l y hy

lemma hpAlpha_bounds (r : ℝ) (h : 160 * Real.pi ≤ r) :
    1 / 2 ≤ hpAlpha 80 r ∧ hpAlpha 80 r ≤ 1 := by
  have hπ : 0 < Real.pi := Real.pi_pos
  have hr : 0 < r := lt_of_lt_of_le (by positivity) h
  have hRC : (0 : ℝ) < 1 / (80 * 2 * Real.pi) := by positivity
  have hdt : (0 : ℝ) < 1 / r := by positivity
  have hdtRC : 1 / r ≤ 1 / (80 * 2 * Real.pi) := by
    apply one_div_le_one_div_of_le (by positivity)
    linarith
  have hden : (0 : ℝ) < 1 / (80 * 2 * Real.pi) + 1 / r := by linarith
  constructor
  · simp only [hpAlpha]
    rw [le_div_iff hden]
    linarith
  · simp only [hpAlpha]
    rw [div_le_one hden]
    linarith

lemma hpGo_abs_le (alpha : ℝ) (h1 : 1 / 2 ≤ alpha) (h2 : alpha ≤ 1)
    (xs : List ℝ) (prevY prevX : ℝ) (hxs : ∀ x ∈ xs, |x| ≤ 1) (hpx : |prevX| ≤ 1)
    (hz : |prevY - alpha * prevX| ≤ alpha) :
    ∀ y ∈ hpGo alpha prevY prevX xs, |y| ≤ 2 := by
  induction xs generalizing prevY prevX with
  | nil => simp [hpGo]
  | cons x t ih =>
    intro y hy
    have hα0 : (0 : ℝ) ≤ alpha := by linarith
    have hx1 : |x| ≤ 1 := hxs x (by simp)
    have key : |alpha * (prevY + x - prevX) - alpha * x| ≤ alpha := by
      have e1 : alpha * (prevY + x - prevX) - alpha * x =
          alpha * (prevY - alpha * prevX) + (alpha * (alpha - 1)) * prevX := by ring
      rw [e1]
      have t1 : |alpha * (prevY - alpha * prevX)| ≤ alpha * alpha := by
        rw [abs_mul, abs_of_nonneg hα0]
        exact mul_le_mul_of_nonneg_left hz hα0
      have t2 : |(alpha * (alpha - 1)) * prevX| ≤ alpha * (1 - alpha) := by
        rw [abs_mul]
        have e2 : |alpha * (alpha - 1)| = alpha * (1 - alpha) := by
          rw [abs_mul, abs_of_nonneg hα0, abs_of_nonpos (by linarith : alpha - 1 ≤ 0)]
          ring
        rw [e2]
        calc alpha * (1 - alpha) * |prevX| ≤ alpha * (1 - alpha) * 1 :=
              mul_le_mul_of_nonneg_left hpx (by nlinarith)
          _ = alpha * (1 - alpha) := mul_one _
      calc |alpha * (prevY - alpha * prevX) + (alpha * (alpha - 1)) * prevX| ≤
            |alpha * (prevY - alpha * prevX)| + |(alpha * (alpha - 1)) * prevX| := abs_add _ _
        _ ≤ alpha * alpha + alpha * (1 - alpha) := add_le_add t1 t2
        _ = alpha := by ring
    have hy0 : |alpha * (prevY + x - prevX)| ≤ 2 := by
      have hsplit : |alpha * (prevY + x - prevX)| ≤
          |alpha * (prevY + x - prevX) - alpha * x| + |alpha * x| := by
        calc |alpha * (prevY + x - prevX)| =
            |(alpha * (prevY + x - prevX) - alpha * x) + alpha * x| := by ring_nf
          _ ≤ _ := abs_add _ _
      have hax : |alpha * x| ≤ alpha := by
        rw [abs_mul, abs_of_nonneg hα0]
        nlinarith
      linarith
    simp only [hpGo, List.mem_cons] at hy
    rcases hy with rfl | hy'
    · exact hy0
    · exact ih _ _ (fun z hz' => hxs z (List.mem_cons_of_mem _ hz')) hx1 key y hy'

lemma condition_mem_abs_le (samples : List ℝ) (r : ℝ) (h : 160 * Real.pi ≤ r) :
    ∀ y ∈ condition samples r, |y| ≤ 2 := by
  obtain ⟨ha1, ha2⟩ := hpAlpha_bounds r h
  unfold condition highPassFilter
  cases hn : normalizeAudio samples with
  | nil => simp
  | cons x xs =>
    intro y hy
    have hmem : ∀ z ∈ normalizeAudio samples, |z| ≤ 1 :=
      fun z hz => normalizeAudio_mem_abs_le_one samples z hz
    have hx1 : |x| ≤ 1 := hmem x (by rw [hn]; simp)
    simp only [List.mem_cons] at hy
    rcases hy with rfl | hy'
    · linarith
    · have hz0 : |x - hpAlpha 80 r * x| ≤ hpAlpha 80 r := by
        have e : x - hpAlpha 80 r * x = (1 - hpAlpha 80 r) * x := by ring
        rw [e, abs_mul, abs_of_nonneg (by linarith : (0 : ℝ) ≤ 1 - hpAlpha 80 r)]
        nlinarith
      exact hpGo_abs_le (hpAlpha 80 r) ha1 ha2 xs x x
        (fun z hz => hmem z (by rw [hn]; exact List.mem_cons_of_mem _ hz)) hx1 hz0 y hy'

lemma maxAbs_replicate_zero (n : ℕ) : maxAbs (List.replicate n (0 : ℝ)) = 0 := by
  induction n with
  | zero => rfl
  | succ k ih =>
    unfold maxAbs at ih ⊢
    rw [List.replicate_succ, List.foldl_cons]
    simpa using ih

lemma hpGo_zeros (alpha : ℝ) (n : ℕ) :
    hpGo alpha 0 0 (List.replicate n 0) = List.replicate n 0 := by
  induction n with
  | zero => simp [hpGo]
  | succ k ih => simp [List.replicate_succ, hpGo, ih]

lemma condition_zeros (n : ℕ) (r : ℝ) :
    condition (List.replicate n (0 : ℝ)) r = List.replicate n 0 := by
  have hnorm : normalizeAudio (List.replicate n (0 : ℝ)) = List.replicate n 0 := by
    unfold normalizeAudio
    rw [if_pos (maxAbs_replicate_zero n)]
  unfold condition
  rw [hnorm]
  cases n with
  | zero => rfl
  | succ k =>
    unfold highPassFilter
    rw [List.replicate_succ]
    simp [hpGo_zeros]

/-- C5 counterexample: conditioning the already-normalized buffer
`[1, -1, -1, 1]` at 44100 Hz produces an output whose maximum absolute
amplitude exceeds 1: the high-pass recurrence overshoots, its last output
being `2*alpha - alpha^3 > 1.01` for `alpha = hpAlpha 80 44100 > 0.988`. -/
theorem c5_counterexample : 1 < maxAbs (condition [(1 : ℝ), -1, -1, 1] 44100) := by
  have hπl : 3.141592 < Real.pi := Real.pi_gt_d6
  have hπu : Real.pi < 3.141593 := Real.pi_lt_d6
  have hπ : 0 < Real.pi := Real.pi_pos
  set a := hpAlpha 80 44100 with ha_def
  have hu_lo : (1 : ℝ) / 502.65488 < 1 / (80 * 2 * Real.pi) := by
    apply one_div_lt_one_div_of_lt (by positivity)
    nlinarith
  have hu_hi : (1 : ℝ) / (80 * 2 * Real.pi) < 1 / 502.65472 := by
    apply one_div_lt_one_div_of_lt (by norm_num)
    nlinarith
  have hden : (0 : ℝ) < 1 / (80 * 2 * Real.pi) + 1 / 44100 := by positivity
  have ha_lo : (0.988 : ℝ) < a := by
    rw [ha_def]
    simp only [hpAlpha]
    rw [lt_div_iff hden]
    linarith
  have ha_hi : a < (0.989 : ℝ) := by
    rw [ha_def]
    simp only [hpAlpha]
    rw [div_lt_iff hden]
    linarith
  have hm : maxAbs [(1 : ℝ), -1, -1, 1] = 1 := by
    unfold maxAbs
    simp only [List.foldl_cons, List.foldl_nil]
    norm_num
  have hnorm : normalizeAudio [(1 : ℝ), -1, -1, 1] = [1, -1, -1, 1] := by
    unfold normalizeAudio
    rw [hm, if_neg (by norm_num)]
    norm_num
  have hc : condition [(1 : ℝ), -1, -1, 1] 44100 =
      [1, a * (1 + -1 - 1), a * (a * (1 + -1 - 1) + -1 - -1),
        a * (a * (a * (1 + -1 - 1) + -1 - -1) + 1 - -1)] := by
    unfold condition
    rw [hnorm]
    rfl
  have hval : a * (a * (a * (1 + -1 - 1) + -1 - -1) + 1 - -1) = a * (2 - a * a) := by
    ring
  have hmem : a * (2 - a * a) ∈ condition [(1 : ℝ), -1, -1, 1] 44100 := by
    rw [hc, ← hval]
    simp
  have hgt : 1 < a * (2 - a * a) := by nlinarith
  have hpos : 0 < a * (2 - a * a) := by linarith
  calc (1 : ℝ) < a * (2 - a * a) := hgt
    _ = |a * (2 - a * a)| := (abs_of_pos hpos).symm
    _ ≤ maxAbs (condition [(1 : ℝ), -1, -1, 1] 44100) := abs_le_maxAbs _ _ hmem

/-- C5 amended: for any sample rate of at least `160 * pi` (about 503 Hz, so
every real audio rate), the conditioned output has maximum absolute
amplitude at most 2 — not at most 1.0 as claimed, since the high-pass stage
can overshoot the normalized peak — and an all-zero buffer is returned
unchanged by conditioning. -/
theorem c5_condition_output_bounds (samples : List ℝ) (sampleRate : ℝ) (n : ℕ) :
    (160 * Real.pi ≤ sampleRate → maxAbs (condition samples sampleRate) ≤ 2) ∧
    condition (List.replicate n (0 : ℝ)) sampleRate = List.replicate n 0 :=
  ⟨fun h => maxAbs_le _ 2 (by norm_num) (condition_mem_abs_le samples sampleRate h),
    condition_zeros n sampleRate⟩

/-- Witness for the amended C5 at the buffer `[1, 0]` and rate 44100. -/
theorem c5_condition_output_bounds_witness :
    (160 * Real.pi ≤ 44100 ∧ maxAbs (condition [(1 : ℝ), 0] 44100) ≤ 2) ∧
    condition (List.replicate 3 (0 : ℝ)) 44100 = List.replicate 3 0 := by
  have h : 160 * Real.pi ≤ 44100 := by nlinarith [Real.pi_lt_d2]
  exact ⟨⟨h, (c5_condition_output_bounds [(1 : ℝ), 0] 44100 3).1 h⟩,
    (c5_condition_output_bounds [(1 : ℝ), 0] 44100 3).2⟩

/-- Checked division: `none` exactly where JavaScript division would produce
NaN or Infinity, i.e. where the denominator is zero. -/
noncomputable def divChk (a b : ℝ) : Option ℝ :=
  if b = 0 then none else some (a / b)

/-- Checked square root: `none` exactly where JavaScript `Math.sqrt` would
produce NaN, i.e. on a negative argument. -/
noncomputable def sqrtChk (a : ℝ) : Option ℝ :=
  if a < 0 then none else some (Real.sqrt a)

/-- NaN-instrumented embedding of `calculateSpectralFlatness`
(backend/server.js): geometric over arithmetic mean of the strictly positive
magnitudes, with the explicit `count === 0` and `arithmeticMean > 0`
guards of the source. -/
noncomputable def calculateSpectralFlatnessChk (spectrum : List ℝ) : Option ℝ :=
  let pos := spectrum.filter fun x => decide (0 < x)
  if pos.length = 0 then some 0
  else
    (divChk (pos.map Real.log).sum (pos.length : ℝ)).bind fun gRaw =>
      (divChk pos.sum (pos.length : ℝ)).bind fun am =>
        if 0 < am then divChk (Real.exp gRaw) am else some 0

/-- NaN-instrumented embedding of `calculateSpectralContrast`
(backend/server.js): mean of the top 10% of magnitudes over the mean of the
bottom 10%, sorted descending; `topN = bottomN = Math.floor(length * 0.1)`
(integer tenth), and `slice(-0)` yields the whole array, as in JavaScript. -/
noncomputable def calculateSpectralContrastChk (spectrum : List ℝ) : Option ℝ :=
  let sorted := List.insertionSort (fun a b : ℝ => b ≤ a) spectrum
  let topN := spectrum.length / 10
  let bottomN := spectrum.length / 10
  let valleySlice := if bottomN = 0 then sorted else sorted.drop (sorted.length - bottomN)
  (divChk (sorted.take topN).sum (topN : ℝ)).bind fun peakMean =>
    (divChk valleySlice.sum (bottomN : ℝ)).bind fun valleyMean =>
      if 0 < valleyMean then divChk peakMean valleyMean else some 0

/-- NaN-instrumented embedding of `findPeakFrequency` (backend/server.js):
scan the clamped bin range for the strictly largest magnitude, starting from
`(maxMag, peakBin) = (0, lowBin)`, and return
`(peakBin / spectrum.length) * nyquist`. -/
noncomputable def findPeakFrequencyChk (spectrum : List ℝ)
    (sampleRate lowFreq highFreq : ℝ) : Option ℝ :=
  let nyquist := sampleRate / 2
  (divChk lowFreq nyquist).bind fun lq =>
    (divChk highFreq nyquist).bind fun hq =>
      let lowBin : ℤ := ⌊lq * (spectrum.length : ℝ)⌋
      let highBin : ℤ := ⌈hq * (spectrum.length : ℝ)⌉
      let s : ℤ := max 0 lowBin
      let e : ℤ := min highBin (spectrum.length : ℤ)
      let st := (List.range (e - s).toNat).foldl
        (fun acc k =>
          let x := spectrum.getD (s + (k : ℤ)).toNat 0
          if acc.1 < x then (x, s + (k : ℤ)) else acc)
        ((0 : ℝ), lowBin)
      (divChk ((st.2 : ℤ) : ℝ) (spectrum.length : ℝ)).bind fun pb =>
        some (pb * nyquist)

/-- NaN-instrumented embedding of `getBandEnergy` (backend/server.js), with
the frequency-to-bin divisions and the final division and square root
checked. -/
noncomputable def getBandEnergyChk (spectrum : List ℝ)
    (lowFreq highFreq sampleRate : ℝ) : Option ℝ :=
  let nyquist := sampleRate / 2
  (divChk lowFreq nyquist).bind fun lq =>
    (divChk highFreq nyquist).bind fun hq =>
      let s : ℤ := max 0 ⌊lq * (spectrum.length : ℝ)⌋
      let e : ℤ := min ⌈hq * (spectrum.length : ℝ)⌉ (spectrum.length : ℤ)
      if e ≤ s then some 0
      else
        (divChk (((spectrum.drop s.toNat).take (e - s).toNat).map fun x => x * x).sum
            ((e - s + 1 : ℤ) : ℝ)).bind sqrtChk

/-- NaN-instrumented embedding of `calculateSpectralCentroid`
(backend/server.js): frequency-weighted mean of the magnitudes with the
`sum > 0` guard; the per-bin frequency `(i / length) * nyquist` divisions
are checked. -/
noncomputable def calculateSpectralCentroidChk (spectrum : List ℝ)
    (sampleRate : ℝ) : Option ℝ :=
  let nyquist := sampleRate / 2
  (spectrum.enum.mapM fun p =>
      (divChk (p.1 : ℝ) (spectrum.length : ℝ)).bind fun q =>
        some (q * nyquist * p.2)).bind fun terms =>
    if 0 < spectrum.sum then divChk terms.sum spectrum.sum else some 0

/-- Cumulative-energy scan of `calculateSpectralRolloff`: return the bin
frequency at the first index where the running sum reaches the threshold,
or the nyquist frequency if it never does. -/
noncomputable def rolloffGo (nyquist thr : ℝ) (len : ℕ) : ℕ → ℝ → List ℝ → Option ℝ
  | _, _, [] => some nyquist
  | i, cum, x :: xs =>
    if thr ≤ cum + x then (divChk (i : ℝ) (len : ℝ)).bind fun q => some (q * nyquist)
    else rolloffGo nyquist thr len (i + 1) (cum + x) xs

/-- NaN-instrumented embedding of `calculateSpectralRolloff`
(backend/server.js): threshold is 85% of the total energy. -/
noncomputable def calculateSpectralRolloffChk (spectrum : List ℝ)
    (sampleRate : ℝ) : Option ℝ :=
  rolloffGo (sampleRate / 2) (0.85 * spectrum.sum) spectrum.length 0 0 spectrum

/-- NaN-instrumented embedding of `calculateSpectralFluxBetween`
(backend/server.js): RMS of the per-bin magnitude differences over the
common length of the two spectra. -/
noncomputable def calculateSpectralFluxBetweenChk (s1 s2 : List ℝ) : Option ℝ :=
  (divChk ((s1.zip s2).map fun p => (p.1 - p.2) * (p.1 - p.2)).sum
      ((min s1.length s2.length : ℕ) : ℝ)).bind sqrtChk

/-- NaN-instrumented embedding of `calculateEnergy` (backend/server.js):
RMS of the raw window samples. -/
noncomputable def calculateEnergyChk (samples : List ℝ) : Option ℝ :=
  (divChk ((samples.map fun x => x * x).sum) ((samples.length : ℕ) : ℝ)).bind sqrtChk

/-- NaN-instrumented embedding of `calculateZeroCrossingRate`
(backend/server.js): number of sign changes between consecutive samples,
divided by the number of samples. -/
noncomputable def calculateZeroCrossingRateChk (samples : List ℝ) : Option ℝ :=
  let crossings := ((samples.zip samples.tail).filter fun p =>
    decide ((0 ≤ p.2 ∧ p.1 < 0) ∨ (p.2 < 0 ∧ 0 ≤ p.1))).length
  divChk (crossings : ℝ) ((samples.length : ℕ) : ℝ)

/-- NaN-instrumented per-feature similarity for non-peak features: the
division is floored by `Math.max(..., 0.001)`. -/
noncomputable def featureSimilarityChk (v1 v2 : ℝ) : Option ℝ :=
  (divChk |v1 - v2| (max (max |v1| |v2|) 0.001)).bind fun nd =>
    some (Real.exp (-nd * 2.0))

/-- NaN-instrumented per-feature similarity for the peak-frequency features:
the divisor is floored by `Math.max(v1, v2, 1) * 0.1`. -/
noncomputable def peakFreqSimilarityChk (v1 v2 : ℝ) : Option ℝ :=
  (divChk |v1 - v2| (max (max v1 v2) 1 * 0.1)).bind fun q =>
    some (Real.exp (-q))

lemma divChk_isSome (a b : ℝ) (h : b ≠ 0) : (divChk a b).isSome = true := by
  rw [divChk, if_neg h]
  rfl

lemma sqrtChk_isSome (a : ℝ) (h : 0 ≤ a) : (sqrtChk a).isSome = true := by
  rw [sqrtChk, if_neg (not_lt.mpr h)]
  rfl

lemma mapM_isSome {α β : Type} (f : α → Option β) (l : List α)
    (h : ∀ a ∈ l, (f a).isSome = true) : (l.mapM f).isSome = true := by
  induction l with
  | nil => rfl
  | cons a t ih =>
    rw [List.mapM_cons]
    obtain ⟨b, hb⟩ := Option.isSome_iff_exists.mp (h a (by simp))
    obtain ⟨bs, hbs⟩ := Option.isSome_iff_exists.mp
      (ih fun x hx => h x (List.mem_cons_of_mem _ hx))
    rw [hb, hbs]
    rfl

lemma flatnessChk_isSome (spectrum : List ℝ) :
    (calculateSpectralFlatnessChk spectrum).isSome = true := by
  simp only [calculateSpectralFlatnessChk]
  by_cases h : (spectrum.filter fun x => decide (0 < x)).length = 0
  · rw [if_pos h]
    rfl
  · have hc : (((spectrum.filter fun x => decide (0 < x)).length : ℕ) : ℝ) ≠ 0 :=
      Nat.cast_ne_zero.mpr h
    rw [if_neg h, divChk, if_neg hc, Option.some_bind, divChk, if_neg hc, Option.some_bind]
    split
    · rename_i ham
      rw [divChk, if_neg (ne_of_gt ham)]
      rfl
    · rfl

lemma contrastChk_isSome (spectrum : List ℝ) (h : 10 ≤ spectrum.length) :
    (calculateSpectralContrastChk spectrum).isSome = true := by
  have htop : spectrum.length / 10 ≠ 0 := by
    have h1 : 1 ≤ spectrum.length / 10 := (Nat.one_le_div_iff (by norm_num)).mpr h
    omega
  have hc : ((spectrum.length / 10 : ℕ) : ℝ) ≠ 0 := Nat.cast_ne_zero.mpr htop
  simp only [calculateSpectralContrastChk]
  rw [if_neg htop, divChk, if_neg hc, Option.some_bind, divChk, if_neg hc, Option.some_bind]
  split
  · rename_i hvm
    rw [divChk, if_neg (ne_of_gt hvm)]
    rfl
  · rfl

lemma peakChk_isSome (spectrum : List ℝ) (sampleRate lowFreq highFreq : ℝ)
    (hlen : spectrum.length ≠ 0) (hr : sampleRate ≠ 0) :
    (findPeakFrequencyChk spectrum sampleRate lowFreq highFreq).isSome = true := by
  have hny : sampleRate / 2 ≠ 0 := div_ne_zero hr two_ne_zero
  have hlc : ((spectrum.length : ℕ) : ℝ) ≠ 0 := Nat.cast_ne_zero.mpr hlen
  simp only [findPeakFrequencyChk]
  rw [divChk, if_neg hny, Option.some_bind, divChk, if_neg hny, Option.some_bind,
    divChk, if_neg hlc, Option.some_bind]
  rfl

lemma bandChk_aux (E : ℝ) (hE : 0 ≤ E) (s e : ℤ) (h : ¬e ≤ s) :
    ((divChk E ((e - s + 1 : ℤ) : ℝ)).bind sqrtChk).isSome = true := by
  have h1 : (0 : ℝ) < ((e - s + 1 : ℤ) : ℝ) := by
    exact_mod_cast (by omega : (0 : ℤ) < e - s + 1)
  rw [divChk, if_neg (ne_of_gt h1), Option.some_bind, sqrtChk,
    if_neg (not_lt.mpr (div_nonneg hE h1.le))]
  rfl

lemma squaresSum_nonneg (l : List ℝ) : 0 ≤ (l.map fun x => x * x).sum := by
  apply listSum_nonneg
  intro x hx
  obtain ⟨y, _, rfl⟩ := List.mem_map.mp hx
  exact mul_self_nonneg y

lemma bandChk_isSome (spectrum : List ℝ) (lowFreq highFreq sampleRate : ℝ)
    (hr : sampleRate ≠ 0) :
    (getBandEnergyChk spectrum lowFreq highFreq sampleRate).isSome = true := by
  have hny : sampleRate / 2 ≠ 0 := div_ne_zero hr two_ne_zero
  simp only [getBandEnergyChk]
  rw [divChk, if_neg hny, Option.some_bind, divChk, if_neg hny, Option.some_bind]
  split
  · rfl
  · rename_i hse
    exact bandChk_aux _ (squaresSum_nonneg _) _ _ hse

lemma centroidChk_isSome (spectrum : List ℝ) (sampleRate : ℝ)
    (hlen : spectrum.length ≠ 0) :
    (calculateSpectralCentroidChk spectrum sampleRate).isSome = true := by
  have hlc : ((spectrum.length : ℕ) : ℝ) ≠ 0 := Nat.cast_ne_zero.mpr hlen
  simp only [calculateSpectralCentroidChk]
  have hmap : (spectrum.enum.mapM fun p =>
      (divChk (p.1 : ℝ) (spectrum.length : ℝ)).bind fun q =>
        some (q * (sampleRate / 2) * p.2)).isSome = true := by
    apply mapM_isSome
    intro p _
    rw [divChk, if_neg hlc, Option.some_bind]
    rfl
  obtain ⟨terms, hterms⟩ := Option.isSome_iff_exists.mp hmap
  rw [hterms, Option.some_bind]
  split
  · rename_i hsum
    rw [divChk, if_neg (ne_of_gt hsum)]
    rfl
  · rfl

lemma rolloffGo_isSome (ny thr : ℝ) (len : ℕ) (hlen : len ≠ 0) :
    ∀ (xs : List ℝ) (i : ℕ) (cum : ℝ), (rolloffGo ny thr len i cum xs).isSome = true := by
  have hlc : ((len : ℕ) : ℝ) ≠ 0 := Nat.cast_ne_zero.mpr hlen
  intro xs
  induction xs with
  | nil => intro i cum; rfl
  | cons x t ih =>
    intro i cum
    simp only [rolloffGo]
    split
    · rw [divChk, if_neg hlc, Option.some_bind]
      rfl
    · exact ih (i + 1) (cum + x)

lemma rolloffChk_isSome (spectrum : List ℝ) (sampleRate : ℝ)
    (hlen : spectrum.length ≠ 0) :
    (calculateSpectralRolloffChk spectrum sampleRate).isSome = true :=
  rolloffGo_isSome _ _ _ hlen spectrum 0 0

lemma fluxChk_isSome (s1 s2 : List ℝ) (h1 : s1 ≠ []) (h2 : s2 ≠ []) :
    (calculateSpectralFluxBetweenChk s1 s2).isSome = true := by
  have hmin : min s1.length s2.length ≠ 0 := by
    have p1 := List.length_pos.mpr h1
    have p2 := List.length_pos.mpr h2
    omega
  have hpos : (0 : ℝ) < ((min s1.length s2.length : ℕ) : ℝ) := by
    exact_mod_cast Nat.pos_of_ne_zero hmin
  simp only [calculateSpectralFluxBetweenChk]
  rw [divChk, if_neg (ne_of_gt hpos), Option.some_bind, sqrtChk]
  rw [if_neg (not_lt.mpr (div_nonneg ?_ hpos.le))]
  · rfl
  · apply listSum_nonneg
    intro x hx
    obtain ⟨p, _, rfl⟩ := List.mem_map.mp hx
    exact mul_self_nonneg _

lemma energyChk_isSome (samples : List ℝ) (h : samples ≠ []) :
    (calculateEnergyChk samples).isSome = true := by
  have hpos : (0 : ℝ) < ((samples.length : ℕ) : ℝ) := by
    exact_mod_cast List.length_pos.mpr h
  simp only [calculateEnergyChk]
  rw [divChk, if_neg (ne_of_gt hpos), Option.some_bind, sqrtChk,
    if_neg (not_lt.mpr (div_nonneg (squaresSum_nonneg _) hpos.le))]
  rfl

lemma zcrChk_isSome (samples : List ℝ) (h : samples ≠ []) :
    (calculateZeroCrossingRateChk samples).isSome = true := by
  have hpos : (0 : ℝ) < ((samples.length : ℕ) : ℝ) := by
    exact_mod_cast List.length_pos.mpr h
  simp only [calculateZeroCrossingRateChk]
  exact divChk_isSome _ _ (ne_of_gt hpos)

lemma featureSimilarityChk_isSome (v1 v2 : ℝ) :
    (featureSimilarityChk v1 v2).isSome = true := by
  have hd : (0 : ℝ) < max (max |v1| |v2|) 0.001 :=
    lt_of_lt_of_le (by norm_num) (le_max_right _ _)
  simp only [featureSimilarityChk]
  rw [divChk, if_neg (ne_of_gt hd), Option.some_bind]
  rfl

lemma peakFreqSimilarityChk_isSome (v1 v2 : ℝ) :
    (peakFreqSimilarityChk v1 v2).isSome = true := by
  have h1 : (1 : ℝ) ≤ max (max v1 v2) 1 := le_max_right _ _
  have hd : (0 : ℝ) < max (max v1 v2) 1 * 0.1 := by nlinarith
  simp only [peakFreqSimilarityChk]
  rw [divChk, if_neg (ne_of_gt hd), Option.some_bind]
  rfl

/-- C9 counterexample: `calculateSpectralContrast` is NOT NaN-free on every
well-formed spectrum.  The five-bin spectrum `[1, 1, 1, 1, 1]` is non-empty,
finite, and non-negative, yet `topN = Math.floor(5 * 0.1) = 0` makes the
peak-mean computation divide by zero, which JavaScript turns into NaN and
propagates to the returned value; the division by `topN` is not guarded. -/
theorem c9_counterexample :
    calculateSpectralContrastChk [(1 : ℝ), 1, 1, 1, 1] = none := by
  simp [calculateSpectralContrastChk, divChk]

/-- C9 amended: for well-formed inputs with the additional requirement that
the spectrum has at least 10 bins (so that the unguarded `topN` divisor of
`calculateSpectralContrast` is at least 1 — the only unguarded division site)
and a nonzero sample rate, no feature computation and no per-feature
similarity computation reaches a division by zero or a negative square root,
i.e. none of them can produce NaN or Infinity. -/
theorem c9_no_nan_with_min_bins
    (window spectrum spectrum2 : List ℝ) (sampleRate lowFreq highFreq v1 v2 : ℝ)
    (hw : window ≠ []) (hs : 10 ≤ spectrum.length) (hs2 : spectrum2 ≠ [])
    (hr : sampleRate ≠ 0) (hnn : ∀ x ∈ spectrum, 0 ≤ x) :
    (calculateSpectralFlatnessChk spectrum).isSome = true ∧
    (calculateSpectralContrastChk spectrum).isSome = true ∧
    (findPeakFrequencyChk spectrum sampleRate lowFreq highFreq).isSome = true ∧
    (getBandEnergyChk spectrum lowFreq highFreq sampleRate).isSome = true ∧
    (calculateSpectralCentroidChk spectrum sampleRate).isSome = true ∧
    (calculateSpectralRolloffChk spectrum sampleRate).isSome = true ∧
    (calculateSpectralFluxBetweenChk spectrum spectrum2).isSome = true ∧
    (calculateEnergyChk window).isSome = true ∧
    (calculateZeroCrossingRateChk window).isSome = true ∧
    (featureSimilarityChk v1 v2).isSome = true ∧
    (peakFreqSimilarityChk v1 v2).isSome = true := by
  have hlen : spectrum.length ≠ 0 := by omega
  have hsne : spectrum ≠ [] := by
    intro e
    rw [e] at hlen
    exact hlen rfl
  exact ⟨flatnessChk_isSome _, contrastChk_isSome _ hs,
    peakChk_isSome _ _ _ _ hlen hr, bandChk_isSome _ _ _ _ hr,
    centroidChk_isSome _ _ hlen, rolloffChk_isSome _ _ hlen,
    fluxChk_isSome _ _ hsne hs2, energyChk_isSome _ hw,
    zcrChk_isSome _ hw, featureSimilarityChk_isSome _ _,
    peakFreqSimilarityChk_isSome _ _⟩

/-- Witness for the amended C9 at a window `[1, 0]`, a ten-bin all-one
spectrum, a one-bin previous spectrum, sample rate 44100, band [20, 60]. -/
theorem c9_no_nan_with_min_bins_witness :
    ([(1 : ℝ), 0] ≠ ([] : List ℝ) ∧ 10 ≤ (List.replicate 10 (1 : ℝ)).length ∧
      [(1 : ℝ)] ≠ ([] : List ℝ) ∧ (44100 : ℝ) ≠ 0 ∧
      ∀ x ∈ List.replicate 10 (1 : ℝ), 0 ≤ x) ∧
    ((calculateSpectralFlatnessChk (List.replicate 10 (1 : ℝ))).isSome = true ∧
    (calculateSpectralContrastChk (List.replicate 10 (1 : ℝ))).isSome = true ∧
    (findPeakFrequencyChk (List.replicate 10 (1 : ℝ)) 44100 20 60).isSome = true ∧
    (getBandEnergyChk (List.replicate 10 (1 : ℝ)) 20 60 44100).isSome = true ∧
    (calculateSpectralCentroidChk (List.replicate 10 (1 : ℝ)) 44100).isSome = true ∧
    (calculateSpectralRolloffChk (List.replicate 10 (1 : ℝ)) 44100).isSome = true ∧
    (calculateSpectralFluxBetweenChk (List.replicate 10 (1 : ℝ)) [(1 : ℝ)]).isSome = true ∧
    (calculateEnergyChk [(1 : ℝ), 0]).isSome = true ∧
    (calculateZeroCrossingRateChk [(1 : ℝ), 0]).isSome = true ∧
    (featureSimilarityChk 3 5).isSome = true ∧
    (peakFreqSimilarityChk 3 5).isSome = true) := by
  have h1 : [(1 : ℝ), 0] ≠ ([] : List ℝ) := by simp
  have h2 : 10 ≤ (List.replicate 10 (1 : ℝ)).length := by simp
  have h3 : [(1 : ℝ)] ≠ ([] : List ℝ) := by simp
  have h4 : (44100 : ℝ) ≠ 0 := by norm_num
  have h5 : ∀ x ∈ List.replicate 10 (1 : ℝ), 0 ≤ x := by
    intro x hx
    rw [List.eq_of_mem_replicate hx]
    norm_num
  exact ⟨⟨h1, h2, h3, h4, h5⟩,
    c9_no_nan_with_min_bins [(1 : ℝ), 0] (List.replicate 10 (1 : ℝ)) [(1 : ℝ)]
      44100 20 60 3 5 h1 h2 h3 h4 h5⟩
